import Mathlib

/-!
Verification of the runtime simulation core of the `vaultcollapse` game
(two game-logic variants: the linear-path variant in `src/main.js` and the
grid variant in `src/unnamed/part_000`).

Modelling conventions:
* JS numbers are modelled by `ℚ` (exact arithmetic; every quantity the
  claims speak about is produced by `+ - * /` from literals).
* `THREE.Vector3` is modelled by `Vec3`.
* `distanceTo` comparisons are modelled by squared-distance comparisons
  (`Real.sqrt` is monotone on nonnegatives, so `dist < c ↔ distSq < c²`
  for `c ≥ 0`); the search-radius threshold `10` becomes `100` and the
  snap threshold `3` becomes `9`.
* `Math.sin` / `Math.cos` / `Math.random` draws are abstracted as
  function/value parameters; no claim depends on their values.
* DOM writes in `endGame` are modelled as an `outcome` field.
-/

namespace VaultCollapse

/-- Model of `THREE.Vector3`: three rational components. -/
structure Vec3 where
  x : ℚ
  y : ℚ
  z : ℚ
deriving DecidableEq, Repr

def Vec3.add (a b : Vec3) : Vec3 := ⟨a.x + b.x, a.y + b.y, a.z + b.z⟩

instance : Add Vec3 := ⟨Vec3.add⟩

/-- `v.multiplyScalar c`. -/
def Vec3.smul (a : Vec3) (c : ℚ) : Vec3 := ⟨a.x * c, a.y * c, a.z * c⟩

def Vec3.zero : Vec3 := ⟨0, 0, 0⟩

/-- Squared Euclidean distance, standing in for `a.distanceTo b` squared. -/
def Vec3.distSq (a b : Vec3) : ℚ :=
  (a.x - b.x) ^ 2 + (a.y - b.y) ^ 2 + (a.z - b.z) ^ 2

@[simp] theorem Vec3.add_x (a b : Vec3) : (a + b).x = a.x + b.x := rfl
@[simp] theorem Vec3.add_y (a b : Vec3) : (a + b).y = a.y + b.y := rfl
@[simp] theorem Vec3.add_z (a b : Vec3) : (a + b).z = a.z + b.z := rfl
@[simp] theorem Vec3.smul_x (a : Vec3) (c : ℚ) : (a.smul c).x = a.x * c := rfl
@[simp] theorem Vec3.smul_y (a : Vec3) (c : ℚ) : (a.smul c).y = a.y * c := rfl
@[simp] theorem Vec3.smul_z (a : Vec3) (c : ℚ) : (a.smul c).z = a.z * c := rfl

/-- The surface data the player's `currentSurface` reference carries:
the surface's outward normal (`userData.normal`) and its world position. -/
structure SurfRef where
  normal : Vec3
  wpos : Vec3
deriving DecidableEq, Repr

/-- The mutable `player` object (fields relevant to the simulation core). -/
structure Player where
  position : Vec3
  velocity : Vec3
  speed : ℚ
  jumpStrength : ℚ
  isJumping : Bool
  currentSurface : Option SurfRef
  gravity : Vec3
deriving DecidableEq, Repr

/-- Held-key intent: each field merges a key with its arrow-key synonym
(`w` = KeyW/ArrowUp, `s` = KeyS/ArrowDown, `a` = KeyA/ArrowLeft,
`d` = KeyD/ArrowRight). -/
structure Keys where
  w : Bool
  s : Bool
  a : Bool
  d : Bool
  space : Bool
deriving DecidableEq, Repr

/-- `FORWARD_SPEED_MODIFIER` (src/main.js line 15). -/
def FORWARD_SPEED_MODIFIER : ℚ := 0.5

/-- `STRAFE_SPEED_MODIFIER` (src/main.js line 16). -/
def STRAFE_SPEED_MODIFIER : ℚ := 0.7

/-- Horizontal-velocity phase of `updatePlayer` in src/main.js
(lines 426-448): set `velocity.x/z` to `forward * speed`, then add the
W/S forward modifier and the A/D strafe modifier.  `fwd` and `rt` are the
already-projected, normalized forward and right vectors (lines 418-424). -/
def horizVelMain (fwd rt : Vec3) (k : Keys) (p : Player) : Player :=
  let v0 : Vec3 := ⟨fwd.x * p.speed, p.velocity.y, fwd.z * p.speed⟩
  let v1 := if k.w then
      ⟨v0.x + fwd.x * p.speed * FORWARD_SPEED_MODIFIER, v0.y,
       v0.z + fwd.z * p.speed * FORWARD_SPEED_MODIFIER⟩ else v0
  let v2 := if k.s then
      ⟨v1.x - fwd.x * p.speed * FORWARD_SPEED_MODIFIER, v1.y,
       v1.z - fwd.z * p.speed * FORWARD_SPEED_MODIFIER⟩ else v1
  let v3 := if k.a then
      ⟨v2.x - rt.x * p.speed * STRAFE_SPEED_MODIFIER, v2.y,
       v2.z - rt.z * p.speed * STRAFE_SPEED_MODIFIER⟩ else v2
  let v4 := if k.d then
      ⟨v3.x + rt.x * p.speed * STRAFE_SPEED_MODIFIER, v3.y,
       v3.z + rt.z * p.speed * STRAFE_SPEED_MODIFIER⟩ else v3
  { p with velocity := v4 }

/-- Horizontal-velocity phase of `updatePlayer` in src/unnamed/part_000
(lines 392-404): set `velocity.x/z` to `forward * speed`, then add only
the A/D strafe modifier (`0.7`); this variant has no forward/backward
speed modifier (W/ArrowUp act as jump keys there, line 407). -/
def horizVelGrid (fwd rt : Vec3) (k : Keys) (p : Player) : Player :=
  let v0 : Vec3 := ⟨fwd.x * p.speed, p.velocity.y, fwd.z * p.speed⟩
  let v1 := if k.a then
      ⟨v0.x - rt.x * p.speed * 0.7, v0.y, v0.z - rt.z * p.speed * 0.7⟩ else v0
  let v2 := if k.d then
      ⟨v1.x + rt.x * p.speed * 0.7, v1.y, v1.z + rt.z * p.speed * 0.7⟩ else v1
  { p with velocity := v2 }

/-- Jump trigger of src/main.js (lines 450-454): Space while on a surface
and not already jumping sets `velocity.y` to the jump strength and flags
jumping. -/
def jumpStepMain (k : Keys) (p : Player) : Player :=
  if k.space && !p.isJumping && p.currentSurface.isSome then
    { p with velocity := ⟨p.velocity.x, p.jumpStrength, p.velocity.z⟩,
             isJumping := true }
  else p

/-- Gravity application of `updatePlayer` (src/main.js lines 456-461,
src/unnamed/part_000 lines 412-417): airborne or jumping players get
`velocity += gravity * Δt`; a supported, non-jumping player gets
`velocity.y = 0`. -/
def applyGravity (dt : ℚ) (p : Player) : Player :=
  if !p.currentSurface.isSome || p.isJumping then
    { p with velocity := p.velocity + p.gravity.smul dt }
  else
    { p with velocity := ⟨p.velocity.x, 0, p.velocity.z⟩ }

/-- Position integration of `updatePlayer` (src/main.js lines 463-465):
`position += velocity * Δt`. -/
def integrate (dt : ℚ) (p : Player) : Player :=
  { p with position := p.position + p.velocity.smul dt }

/-- The movement phase of `updatePlayer` in src/main.js (lines 426-465),
in source order: horizontal velocity, jump trigger, gravity, integration. -/
def updatePlayerMoveMain (dt : ℚ) (fwd rt : Vec3) (k : Keys) (p : Player) : Player :=
  integrate dt (applyGravity dt (jumpStepMain k (horizVelMain fwd rt k p)))

/-- C1: For every tick with the session active: if `currentSurface` is null
or the player is jumping, the tick adds `gravity * Δt` to the velocity (in
particular `v_y' = v_y + gravity_y * Δt`); if `currentSurface` is non-null
and the player is not jumping, the vertical velocity is set to exactly 0;
and this happens before position integration (the position increment uses
the post-gravity velocity).  (`updatePlayer` runs only while `gameActive`;
its body is what is modelled.) -/
theorem C1_gravity_lock (dt : ℚ) (p : Player) :
    ((p.currentSurface = none ∨ p.isJumping = true) →
      (applyGravity dt p).velocity = p.velocity + p.gravity.smul dt ∧
      (applyGravity dt p).velocity.y = p.velocity.y + p.gravity.y * dt) ∧
    (p.currentSurface ≠ none ∧ p.isJumping = false →
      (applyGravity dt p).velocity.y = 0) ∧
    (∀ fwd rt k, (updatePlayerMoveMain dt fwd rt k p).position =
      (applyGravity dt (jumpStepMain k (horizVelMain fwd rt k p))).position +
        ((applyGravity dt (jumpStepMain k (horizVelMain fwd rt k p))).velocity).smul dt) := by
  refine ⟨fun h => ?_, fun h => ?_, fun fwd rt k => rfl⟩
  · have hcond : (!p.currentSurface.isSome || p.isJumping) = true := by
      rcases h with h | h
      · simp [h]
      · simp [h]
    unfold applyGravity
    rw [if_pos hcond]
    exact ⟨rfl, rfl⟩
  · obtain ⟨h1, h2⟩ := h
    have hsome : p.currentSurface.isSome = true := by
      cases hc : p.currentSurface with
      | none => exact absurd hc h1
      | some s => simp
    have hcond : ¬((!p.currentSurface.isSome || p.isJumping) = true) := by
      simp [hsome, h2]
    unfold applyGravity
    rw [if_neg hcond]

/-- Witness for C1 at a concrete airborne player. -/
theorem C1_gravity_lock_witness :
    (applyGravity 1 ⟨Vec3.zero, Vec3.zero, 3, 8, false, none, ⟨0, -20, 0⟩⟩).velocity.y
      = (Vec3.zero).y + (-20) * 1 :=
  ((C1_gravity_lock 1 ⟨Vec3.zero, Vec3.zero, 3, 8, false, none, ⟨0, -20, 0⟩⟩).1
    (Or.inl rfl)).2

/-- C6 counterexample: the claim asserts that in *both* level-layout
variants a held forward key adds `forward * speed * 0.5` on top of the
baked-in `forward * speed`.  In the grid variant (src/unnamed/part_000)
the forward key adds nothing (it is a jump key there): with
`forward = (0,0,-1)`, `speed = 3` and W held, the grid variant leaves
`velocity.z = -3`, not the `-4.5` the claim requires (which the linear
variant does produce at the same input). -/
theorem C6_forward_modifier_counterexample :
    (horizVelGrid ⟨0, 0, -1⟩ ⟨1, 0, 0⟩ ⟨true, false, false, false, false⟩
        ⟨Vec3.zero, Vec3.zero, 3, 8, false, none, ⟨0, -20, 0⟩⟩).velocity.z = -3 ∧
    (horizVelMain ⟨0, 0, -1⟩ ⟨1, 0, 0⟩ ⟨true, false, false, false, false⟩
        ⟨Vec3.zero, Vec3.zero, 3, 8, false, none, ⟨0, -20, 0⟩⟩).velocity.z = -4.5 ∧
    (-3 : ℚ) ≠ (-1) * 3 + (-1) * 3 * 0.5 ∧ (-3 : ℚ) ≠ -4.5 := by
  refine ⟨?_, ?_, by norm_num, by norm_num⟩
  · norm_num [horizVelGrid]
  · norm_num [horizVelMain, FORWARD_SPEED_MODIFIER, STRAFE_SPEED_MODIFIER]

/-- C6 (amended): in each locomotion tick the horizontal velocity is first
assigned (overwritten) to `forward * speed`; in the linear-path variant
(src/main.js) a held forward key then adds `forward * speed * 0.5`, a held
backward key subtracts the same, and strafe keys add/subtract
`right * speed * 0.7`; in the grid variant (src/unnamed/part_000) only the
strafe modifiers apply (forward/backward keys add nothing — forward keys
are jump keys there), and the result is independent of the W/S fields. -/
theorem C6_horizontal_velocity (fwd rt : Vec3) (k : Keys) (p : Player) :
    ((horizVelMain fwd rt k p).velocity.x =
        fwd.x * p.speed
        + (if k.w then fwd.x * p.speed * (1/2) else 0)
        - (if k.s then fwd.x * p.speed * (1/2) else 0)
        - (if k.a then rt.x * p.speed * (7/10) else 0)
        + (if k.d then rt.x * p.speed * (7/10) else 0) ∧
      (horizVelMain fwd rt k p).velocity.z =
        fwd.z * p.speed
        + (if k.w then fwd.z * p.speed * (1/2) else 0)
        - (if k.s then fwd.z * p.speed * (1/2) else 0)
        - (if k.a then rt.z * p.speed * (7/10) else 0)
        + (if k.d then rt.z * p.speed * (7/10) else 0) ∧
      (horizVelMain fwd rt k p).velocity.y = p.velocity.y) ∧
    ((horizVelGrid fwd rt k p).velocity.x =
        fwd.x * p.speed
        - (if k.a then rt.x * p.speed * (7/10) else 0)
        + (if k.d then rt.x * p.speed * (7/10) else 0) ∧
      (horizVelGrid fwd rt k p).velocity.z =
        fwd.z * p.speed
        - (if k.a then rt.z * p.speed * (7/10) else 0)
        + (if k.d then rt.z * p.speed * (7/10) else 0) ∧
      (horizVelGrid fwd rt k p).velocity.y = p.velocity.y ∧
      horizVelGrid fwd rt k p =
        horizVelGrid fwd rt { k with w := false, s := false } p) := by
  rcases k with ⟨kw, ks, ka, kd, ksp⟩
  refine ⟨⟨?_, ?_, ?_⟩, ⟨?_, ?_, ?_, ?_⟩⟩ <;>
    cases kw <;> cases ks <;> cases ka <;> cases kd <;>
      simp [horizVelMain, horizVelGrid, FORWARD_SPEED_MODIFIER,
        STRAFE_SPEED_MODIFIER] <;> ring_nf <;> tauto

/-- Drift intensity of `updateMapMovement` (src/main.js line 787):
`Math.min(gameTime / 30, 1.0)` where `gameTime` is elapsed session time in
seconds. -/
def driftIntensity (gameTime : ℚ) : ℚ := min (gameTime / 30) 1

/-- Drift offset of `updateMapMovement` (src/main.js lines 792-796), with
`Math.sin` / `Math.cos` abstracted as the parameters `sine` / `cosine`. -/
def driftOffset (sine cosine : ℚ → ℚ) (swayTime intensity : ℚ) : Vec3 :=
  ⟨sine (swayTime * 0.3) * 0.5 * intensity,
   sine (swayTime * 0.2) * 0.3 * intensity,
   cosine (swayTime * 0.25) * 0.5 * intensity⟩

/-- Clamp to `[0, 1]`, as the claim's `clamp(·, 0, 1)`. -/
def clamp01 (x : ℚ) : ℚ := max 0 (min x 1)

/-- C7: drift intensity equals `clamp(elapsedSeconds / 30, 0, 1)` at every
tick (elapsed session time is nonnegative); it is 0 at elapsed time 0 and
the drift offset is then the zero vector (for any sinusoid values); it is
monotonically non-decreasing in elapsed time; and it equals 1 at 30
seconds and at every later time. -/
theorem C7_drift_intensity (t : ℚ) :
    (0 ≤ t → driftIntensity t = clamp01 (t / 30)) ∧
    driftIntensity 0 = 0 ∧
    (∀ sine cosine swayTime,
      driftOffset sine cosine swayTime (driftIntensity 0) = Vec3.zero) ∧
    (∀ t2, t ≤ t2 → driftIntensity t ≤ driftIntensity t2) ∧
    (30 ≤ t → driftIntensity t = 1) := by
  refine ⟨fun ht => ?_, ?_, fun sine cosine swayTime => ?_, fun t2 h => ?_, fun ht => ?_⟩
  · unfold driftIntensity clamp01
    rw [max_eq_right]
    exact le_min (by positivity) zero_le_one
  · unfold driftIntensity
    norm_num
  · have h0 : driftIntensity 0 = 0 := by unfold driftIntensity; norm_num
    rw [h0]
    simp [driftOffset, Vec3.zero]
  · exact min_le_min (by linarith) le_rfl
  · unfold driftIntensity
    rw [min_eq_right]
    linarith

/-- Witness for C7 at `t = 45` seconds. -/
theorem C7_drift_intensity_witness :
    driftIntensity 45 = clamp01 (45 / 30) ∧ driftIntensity 45 = 1 :=
  ⟨(C7_drift_intensity 45).1 (by norm_num),
   (C7_drift_intensity 45).2.2.2.2 (by norm_num)⟩

/-- End-of-session outcome and activity flag (`endGame` writes the DOM;
the title/message writes are modelled as the `outcome` field). -/
structure GameState where
  gameActive : Bool
  outcome : Option (Bool × String)
deriving DecidableEq, Repr

/-- `endGame(won, message)` (src/main.js lines 842-861): clears
`gameActive` and records the outcome. -/
def endGame (won : Bool) (message : String) (_g : GameState) : GameState :=
  { gameActive := false, outcome := some (won, message) }

/-- The void-death message of src/main.js line 479. -/
def voidDeathMessage : String := "You fell into the void!"

/-- Void-death check at the end of `updatePlayer` (src/main.js lines
477-480): a height below −50 ends the session as a loss. -/
def voidCheck (posY : ℚ) (g : GameState) : GameState :=
  if posY < -50 then endGame false voidDeathMessage g else g

/-- C8: whenever the player's height is below −50, the session ends as a
loss — `gameActive` becomes false with outcome `won = false` and the
void-death message; the void check does not end the session while the
height is at or above −50. -/
theorem C8_void_death (posY : ℚ) (g : GameState) :
    (posY < -50 →
      voidCheck posY g =
        { gameActive := false, outcome := some (false, voidDeathMessage) }) ∧
    (¬posY < -50 → voidCheck posY g = g) := by
  constructor
  · intro h
    unfold voidCheck endGame
    rw [if_pos h]
  · intro h
    unfold voidCheck
    rw [if_neg h]

/-- Witness for C8 at height −51 and at height −50. -/
theorem C8_void_death_witness :
    voidCheck (-51) ⟨true, none⟩ =
      { gameActive := false, outcome := some (false, voidDeathMessage) } ∧
    voidCheck (-50) ⟨true, none⟩ = ⟨true, none⟩ :=
  ⟨(C8_void_death (-51) ⟨true, none⟩).1 (by norm_num),
   (C8_void_death (-50) ⟨true, none⟩).2 (by norm_num)⟩

/-- Collapse phase of a room/corridor: `'shake'` or `'fall'`
(`userData.collapsePhase`, entered from intact with `'shake'`). -/
inductive Phase where
  | shake
  | fall
deriving DecidableEq, Repr

/-- The collapse-animation state carried by a collapsing room or corridor:
phase, collapse-start timestamp (ms), recorded fall reference height,
current height, accumulated rotation and the randomized rotational
velocity assigned at collapse start. -/
structure Collapsing where
  phase : Phase
  collapseStartTime : ℚ
  fallStartY : ℚ
  posY : ℚ
  rot : Vec3
  rotationVelocity : Vec3
deriving DecidableEq, Repr

/-- Per-room body of `updateCollapsingRooms` (src/main.js lines 730-754):
shake (sinusoidal height, 1000 ms) then fall
(`y = fallStartY - fallTime² * 10`, rotation advanced by
`rotationVelocity * fallTime`); `Math.sin` abstracted as `sine`. -/
def updateCollapsingRoom (sine : ℚ → ℚ) (now : ℚ) (r : Collapsing) : Collapsing :=
  let elapsed := now - r.collapseStartTime
  match r.phase with
  | .shake =>
      if elapsed < 1000 then { r with posY := sine (elapsed * 0.05) * 0.3 }
      else { r with phase := .fall, fallStartY := r.posY }
  | .fall =>
      let fallTime := (elapsed - 1000) / 1000
      { r with posY := r.fallStartY - fallTime * fallTime * 10,
               rot := r.rot + r.rotationVelocity.smul fallTime }

/-- Per-corridor body of `updateCollapsingCorridors` (src/main.js lines
756-780): shake 500 ms, then fall with `y = fallStartY - fallTime² * 15`
(faster than rooms). -/
def updateCollapsingCorridor (sine : ℚ → ℚ) (now : ℚ) (c : Collapsing) : Collapsing :=
  let elapsed := now - c.collapseStartTime
  match c.phase with
  | .shake =>
      if elapsed < 500 then { c with posY := sine (elapsed * 0.08) * 0.2 }
      else { c with phase := .fall, fallStartY := c.posY }
  | .fall =>
      let fallTime := (elapsed - 500) / 1000
      { c with posY := c.fallStartY - fallTime * fallTime * 15,
               rot := c.rot + c.rotationVelocity.smul fallTime }

/-- C5: the shake phase lasts 1000 ms for rooms and 500 ms for corridors,
after which the phase becomes fall with `fallStartY` recorded as the
entity's height at the moment of transition; during the fall phase the
height equals `fallStartY - k·t²` with `t = (elapsed - shakeDuration)/1000`
seconds since fall start, `k = 10` for rooms and `k = 15` for corridors;
and the fall phase is terminal. -/
theorem C5_collapse_phase_timing (sine : ℚ → ℚ) (now : ℚ) (r c : Collapsing) :
    (r.phase = .shake → now - r.collapseStartTime < 1000 →
      (updateCollapsingRoom sine now r).phase = .shake) ∧
    (r.phase = .shake → ¬now - r.collapseStartTime < 1000 →
      (updateCollapsingRoom sine now r).phase = .fall ∧
      (updateCollapsingRoom sine now r).fallStartY = r.posY ∧
      (updateCollapsingRoom sine now r).posY = r.posY) ∧
    (r.phase = .fall →
      (updateCollapsingRoom sine now r).phase = .fall ∧
      (updateCollapsingRoom sine now r).posY =
        r.fallStartY - ((now - r.collapseStartTime - 1000) / 1000) ^ 2 * 10) ∧
    (c.phase = .shake → now - c.collapseStartTime < 500 →
      (updateCollapsingCorridor sine now c).phase = .shake) ∧
    (c.phase = .shake → ¬now - c.collapseStartTime < 500 →
      (updateCollapsingCorridor sine now c).phase = .fall ∧
      (updateCollapsingCorridor sine now c).fallStartY = c.posY ∧
      (updateCollapsingCorridor sine now c).posY = c.posY) ∧
    (c.phase = .fall →
      (updateCollapsingCorridor sine now c).phase = .fall ∧
      (updateCollapsingCorridor sine now c).posY =
        c.fallStartY - ((now - c.collapseStartTime - 500) / 1000) ^ 2 * 15) := by
  refine ⟨fun hp ht => ?_, fun hp ht => ?_, fun hp => ?_,
          fun hp ht => ?_, fun hp ht => ?_, fun hp => ?_⟩
  · simp only [updateCollapsingRoom, hp]
    rw [if_pos ht]
  · simp only [updateCollapsingRoom, hp]
    rw [if_neg ht]
    exact ⟨rfl, rfl, rfl⟩
  · simp only [updateCollapsingRoom, hp]
    exact ⟨trivial, by ring⟩
  · simp only [updateCollapsingCorridor, hp]
    rw [if_pos ht]
  · simp only [updateCollapsingCorridor, hp]
    rw [if_neg ht]
    exact ⟨rfl, rfl, rfl⟩
  · simp only [updateCollapsingCorridor, hp]
    exact ⟨trivial, by ring⟩

/-- Witness for C5: a room transitioning to fall at `elapsed = 1000` and a
corridor mid-fall at `elapsed = 1500` (hence `t = 1` s, drop `15`). -/
theorem C5_collapse_phase_timing_witness :
    (updateCollapsingRoom (fun _ => 0) 1000 ⟨.shake, 0, 0, 7, Vec3.zero, Vec3.zero⟩).phase
        = .fall ∧
    (updateCollapsingRoom (fun _ => 0) 1000 ⟨.shake, 0, 0, 7, Vec3.zero, Vec3.zero⟩).fallStartY
        = 7 ∧
    (updateCollapsingCorridor (fun _ => 0) 1500 ⟨.fall, 0, 2, 2, Vec3.zero, Vec3.zero⟩).posY
        = 2 - ((1500 - 0 - 500) / 1000) ^ 2 * 15 := by
  refine ⟨?_, ?_, ?_⟩
  · exact ((C5_collapse_phase_timing (fun _ => 0) 1000
      ⟨.shake, 0, 0, 7, Vec3.zero, Vec3.zero⟩
      ⟨.shake, 0, 0, 0, Vec3.zero, Vec3.zero⟩).2.1 rfl (by norm_num)).1
  · exact ((C5_collapse_phase_timing (fun _ => 0) 1000
      ⟨.shake, 0, 0, 7, Vec3.zero, Vec3.zero⟩
      ⟨.shake, 0, 0, 0, Vec3.zero, Vec3.zero⟩).2.1 rfl (by norm_num)).2.1
  · exact ((C5_collapse_phase_timing (fun _ => 0) 1500
      ⟨.shake, 0, 0, 0, Vec3.zero, Vec3.zero⟩
      ⟨.fall, 0, 2, 2, Vec3.zero, Vec3.zero⟩).2.2.2.2.2 rfl).2

/-- A debris particle (src/main.js lines 648-665): position, velocity,
accumulated rotation, fixed per-particle rotation speed, fixed lifetime,
spawn timestamp and material opacity. -/
structure Debris where
  position : Vec3
  velocity : Vec3
  rot : Vec3
  rotationSpeed : Vec3
  lifetime : ℚ
  spawnTime : ℚ
  opacity : ℚ
deriving DecidableEq, Repr

/-- One particle's creation in `createDebrisEffect` (src/main.js lines
640-665); the nine `Math.random()` draws are the parameters `r1`-`r9`
(each in `[0,1)`).  The lifetime is the fixed 3000 ms. -/
def createDebrisParticle (origin : Vec3) (r1 r2 r3 r4 r5 r6 r7 r8 r9 : ℚ)
    (now : ℚ) : Debris :=
  { position := origin + ⟨(r1 - 0.5) * 10, r2 * 5, (r3 - 0.5) * 10⟩,
    velocity := ⟨(r4 - 0.5) * 5, r5 * 3 - 1, (r6 - 0.5) * 5⟩,
    rot := Vec3.zero,
    rotationSpeed := ⟨(r7 - 0.5) * 0.1, (r8 - 0.5) * 0.1, (r9 - 0.5) * 0.1⟩,
    lifetime := 3000,
    spawnTime := now,
    opacity := 1 }

/-- The per-particle physics of `updateDebrisParticles` (src/main.js lines
687-699): `velocity.y += (-15)·Δt` first, position integrates with the
updated velocity, rotation advances by the un-scaled rotation speed, and
opacity is set to `1 - age/lifetime`. -/
def stepDebris (dt now : ℚ) (p : Debris) : Debris :=
  let vel : Vec3 := ⟨p.velocity.x, p.velocity.y + (-15) * dt, p.velocity.z⟩
  { p with velocity := vel,
           position := p.position + vel.smul dt,
           rot := p.rot + p.rotationSpeed,
           opacity := 1 - (now - p.spawnTime) / p.lifetime }

/-- `updateDebrisParticles` (src/main.js lines 672-701): particles whose
age exceeds their lifetime are removed (the source's reverse-index splice
loop is an order-preserving filter); every surviving particle is updated
once by `stepDebris`. -/
def updateDebrisParticles (dt now : ℚ) (ps : List Debris) : List Debris :=
  ps.filterMap (fun p =>
    if now - p.spawnTime > p.lifetime then none else some (stepDebris dt now p))

/-- C9: each update tick adds `−15·Δt` to a particle's vertical velocity,
integrates position by the updated `velocity·Δt`, advances rotation by the
fixed per-particle rotation speed without `Δt` scaling, and sets opacity
to `1 - age/lifetime` (0 at `age = lifetime`, which is 3000 ms for every
created particle); a particle whose age exceeds its lifetime is removed
exactly once — the update is a filter of the expired particles followed by
one `stepDebris` per survivor — and no expired particle remains in the
active set. -/
theorem C9_debris_update (dt now : ℚ) (ps : List Debris) :
    updateDebrisParticles dt now ps =
      (ps.filter (fun p => !(now - p.spawnTime > p.lifetime))).map (stepDebris dt now) ∧
    (∀ p : Debris,
      (stepDebris dt now p).velocity.y = p.velocity.y + (-15) * dt ∧
      (stepDebris dt now p).position =
        p.position + ((stepDebris dt now p).velocity).smul dt ∧
      (stepDebris dt now p).rot = p.rot + p.rotationSpeed ∧
      (stepDebris dt now p).opacity = 1 - (now - p.spawnTime) / p.lifetime ∧
      (stepDebris dt now p).spawnTime = p.spawnTime ∧
      (stepDebris dt now p).lifetime = p.lifetime) ∧
    (∀ p : Debris, p.lifetime ≠ 0 → now - p.spawnTime = p.lifetime →
      (stepDebris dt now p).opacity = 0) ∧
    (∀ origin r1 r2 r3 r4 r5 r6 r7 r8 r9 t,
      (createDebrisParticle origin r1 r2 r3 r4 r5 r6 r7 r8 r9 t).lifetime = 3000) ∧
    (∀ q ∈ updateDebrisParticles dt now ps, ¬now - q.spawnTime > q.lifetime) := by
  refine ⟨?_, fun p => ⟨rfl, rfl, rfl, rfl, rfl, rfl⟩, fun p h0 hage => ?_,
          fun origin r1 r2 r3 r4 r5 r6 r7 r8 r9 t => rfl, fun q hq => ?_⟩
  · induction ps with
    | nil => rfl
    | cons p ps ih =>
        by_cases h : now - p.spawnTime > p.lifetime <;>
          simp [updateDebrisParticles, List.filterMap, h] at ih ⊢ <;>
            exact ih
  · show 1 - (now - p.spawnTime) / p.lifetime = 0
    rw [hage, div_self h0]
    ring
  · simp only [updateDebrisParticles, List.mem_filterMap] at hq
    obtain ⟨p, _, hp⟩ := hq
    by_cases h : now - p.spawnTime > p.lifetime
    · rw [if_pos h] at hp
      exact absurd hp (by simp)
    · rw [if_neg h] at hp
      have hq' : q = stepDebris dt now p := by
        injection hp with h'
        exact h'.symm
      subst hq'
      show ¬now - (stepDebris dt now p).spawnTime > (stepDebris dt now p).lifetime
      exact h

/-- Witness for C9: a particle exactly at its lifetime has opacity 0
after the update. -/
theorem C9_debris_update_witness :
    (stepDebris 1 3000
      ⟨Vec3.zero, Vec3.zero, Vec3.zero, Vec3.zero, 3000, 0, 1⟩).opacity = 0 :=
  (C9_debris_update 1 3000 []).2.2.1
    ⟨Vec3.zero, Vec3.zero, Vec3.zero, Vec3.zero, 3000, 0, 1⟩
    (by norm_num) (by norm_num)

/-- A traversable surface child of a room/corridor group: local position
within the group, outward normal (`userData.normal`) and the
`userData.isSurface` flag checked by the scan. -/
structure Surface where
  localPos : Vec3
  normal : Vec3
  isSurface : Bool
deriving DecidableEq, Repr

/-- A `THREE.Group` owning surfaces — a Room or a Corridor: its world
position, its `userData.isCollapsed` flag and its surface children. -/
structure SurfGroup where
  position : Vec3
  isCollapsed : Bool
  children : List Surface
deriving DecidableEq, Repr

/-- `child.getWorldPosition(...)`: the group's position plus the child's
local position (groups scanned by `findNearestSurface` are unrotated). -/
def SurfGroup.worldPos (g : SurfGroup) (s : Surface) : Vec3 :=
  g.position + s.localPos

/-- The running nearest candidate of `findNearestSurface`: the candidate
surface's normal, world position and squared distance (`nearestSurface`
paired with `nearestDistance`; `none` plays the initial `Infinity`). -/
structure Hit where
  normal : Vec3
  wpos : Vec3
  d2 : ℚ
deriving DecidableEq, Repr

/-- The inner loop body of `findNearestSurface` (src/main.js lines
491-503 and 511-523): skip non-surfaces, then admit the child when
`distance < nearestDistance && distance < 10` (distances squared here, so
the radius bound is `100`). -/
def considerChild (ppos : Vec3) (g : SurfGroup) (acc : Option Hit) (s : Surface) :
    Option Hit :=
  if s.isSurface then
    match acc with
    | none =>
        if Vec3.distSq ppos (g.worldPos s) < 100 then
          some ⟨s.normal, g.worldPos s, Vec3.distSq ppos (g.worldPos s)⟩
        else none
    | some h =>
        if Vec3.distSq ppos (g.worldPos s) < h.d2 ∧
            Vec3.distSq ppos (g.worldPos s) < 100 then
          some ⟨s.normal, g.worldPos s, Vec3.distSq ppos (g.worldPos s)⟩
        else some h
  else acc

/-- The outer loop body of `findNearestSurface` (src/main.js lines
488-489 and 508-509): collapsed groups are skipped entirely. -/
def scanGroup (ppos : Vec3) (acc : Option Hit) (g : SurfGroup) : Option Hit :=
  if g.isCollapsed then acc else g.children.foldl (considerChild ppos g) acc

/-- The search half of `findNearestSurface` (src/main.js lines 483-524):
all rooms are scanned, then all corridors, starting from no candidate. -/
def findNearestHit (ppos : Vec3) (rooms corridors : List SurfGroup) : Option Hit :=
  corridors.foldl (scanGroup ppos) (rooms.foldl (scanGroup ppos) none)

/-- The resolution half of `findNearestSurface` (src/main.js lines
526-549): record `currentSurface`; within the snap threshold (3 units,
squared: 9) rewrite position to `surface + normal·1`, reorient gravity to
`-normal·20`, and clear the jump flag when jumping with `velocity.y < 0`. -/
def findNearestSurface (rooms corridors : List SurfGroup) (p : Player) : Player :=
  match findNearestHit p.position rooms corridors with
  | none => { p with currentSurface := none }
  | some h =>
      if h.d2 < 9 then
        { p with currentSurface := some ⟨h.normal, h.wpos⟩,
                 position := h.wpos + h.normal.smul 1,
                 gravity := h.normal.smul (-20),
                 isJumping :=
                   if p.isJumping ∧ p.velocity.y < 0 then false else p.isJumping }
      else { p with currentSurface := some ⟨h.normal, h.wpos⟩ }

/-- `h` names a surface of a non-collapsed group of `gs` (with its world
position and squared distance from `ppos`). -/
def QualHit (ppos : Vec3) (gs : List SurfGroup) (h : Hit) : Prop :=
  ∃ g ∈ gs, g.isCollapsed = false ∧ ∃ s ∈ g.children, s.isSurface = true ∧
    h.normal = s.normal ∧ h.wpos = g.worldPos s ∧
    h.d2 = Vec3.distSq ppos (g.worldPos s)

theorem considerFold_none (ppos : Vec3) (g : SurfGroup) :
    ∀ (cs : List Surface) (acc : Option Hit),
      cs.foldl (considerChild ppos g) acc = none →
      acc = none ∧ ∀ s ∈ cs, s.isSurface = true →
        ¬Vec3.distSq ppos (g.worldPos s) < 100 := by
  intro cs
  induction cs with
  | nil => exact fun acc hf => ⟨hf, by simp⟩
  | cons s cs ih =>
      intro acc hf
      rw [List.foldl_cons] at hf
      obtain ⟨h1, h2⟩ := ih (considerChild ppos g acc s) hf
      by_cases hs : s.isSurface
      · cases hacc : acc with
        | none =>
            rw [hacc] at h1
            simp only [considerChild, hs, if_true] at h1
            refine ⟨rfl, fun t ht hts => ?_⟩
            rcases List.mem_cons.1 ht with rfl | ht'
            · intro hd
              rw [if_pos hd] at h1
              exact absurd h1 (by simp)
            · exact h2 t ht' hts
        | some h0 =>
            rw [hacc] at h1
            simp only [considerChild, hs, if_true] at h1
            split at h1 <;> exact absurd h1 (by simp)
      · have hs' : s.isSurface = false := by
          cases hb : s.isSurface
          · rfl
          · exact absurd hb hs
        simp only [considerChild, hs', Bool.false_eq_true, if_false] at h1
        refine ⟨h1, fun t ht hts => ?_⟩
        rcases List.mem_cons.1 ht with rfl | ht'
        · rw [hts] at hs'
          cases hs'
        · exact h2 t ht' hts

theorem considerFold_some_src (ppos : Vec3) (g : SurfGroup) :
    ∀ (cs : List Surface) (acc : Option Hit) (h : Hit),
      cs.foldl (considerChild ppos g) acc = some h →
      acc = some h ∨ ∃ s ∈ cs, s.isSurface = true ∧ h.normal = s.normal ∧
        h.wpos = g.worldPos s ∧ h.d2 = Vec3.distSq ppos (g.worldPos s) ∧
        h.d2 < 100 := by
  intro cs
  induction cs with
  | nil => exact fun acc h hf => Or.inl hf
  | cons s cs ih =>
      intro acc h hf
      rw [List.foldl_cons] at hf
      rcases ih (considerChild ppos g acc s) h hf with h1 | ⟨t, ht, hrest⟩
      · by_cases hs : s.isSurface
        · cases hacc : acc with
          | none =>
              rw [hacc] at h1
              simp only [considerChild, hs, if_true] at h1
              by_cases hd : Vec3.distSq ppos (g.worldPos s) < 100
              · rw [if_pos hd] at h1
                injection h1 with h1
                refine Or.inr ⟨s, List.mem_cons_self s cs, hs, ?_⟩
                rw [← h1]
                exact ⟨rfl, rfl, rfl, hd⟩
              · rw [if_neg hd] at h1
                exact absurd h1 (by simp)
          | some h0 =>
              rw [hacc] at h1
              simp only [considerChild, hs, if_true] at h1
              by_cases hd : Vec3.distSq ppos (g.worldPos s) < h0.d2 ∧
                  Vec3.distSq ppos (g.worldPos s) < 100
              · rw [if_pos hd] at h1
                injection h1 with h1
                refine Or.inr ⟨s, List.mem_cons_self s cs, hs, ?_⟩
                rw [← h1]
                exact ⟨rfl, rfl, rfl, hd.2⟩
              · rw [if_neg hd] at h1
                exact Or.inl h1
        · have hs' : s.isSurface = false := by
            cases hb : s.isSurface
            · rfl
            · exact absurd hb hs
          simp only [considerChild, hs', Bool.false_eq_true, if_false] at h1
          exact Or.inl h1
      · exact Or.inr ⟨t, List.mem_cons_of_mem s ht, hrest⟩

theorem considerFold_min (ppos : Vec3) (g : SurfGroup) :
    ∀ (cs : List Surface) (acc : Option Hit) (h : Hit),
      cs.foldl (considerChild ppos g) acc = some h →
      (∀ h0, acc = some h0 → h.d2 ≤ h0.d2) ∧
      (∀ s ∈ cs, s.isSurface = true → Vec3.distSq ppos (g.worldPos s) < 100 →
        h.d2 ≤ Vec3.distSq ppos (g.worldPos s)) := by
  intro cs
  induction cs with
  | nil =>
      intro acc h hf
      rw [List.foldl_nil] at hf
      refine ⟨fun h0 hacc => ?_, by simp⟩
      rw [hf] at hacc
      injection hacc with hacc
      rw [hacc]
  | cons s cs ih =>
      intro acc h hf
      rw [List.foldl_cons] at hf
      obtain ⟨ih1, ih2⟩ := ih (considerChild ppos g acc s) h hf
      by_cases hs : s.isSurface
      · constructor
        · intro h0 hacc
          rw [hacc] at ih1
          by_cases hd : Vec3.distSq ppos (g.worldPos s) < h0.d2 ∧
              Vec3.distSq ppos (g.worldPos s) < 100
          · have := ih1 ⟨s.normal, g.worldPos s, Vec3.distSq ppos (g.worldPos s)⟩
              (by simp only [considerChild, hs, if_true]; rw [if_pos hd])
            exact le_trans this (le_of_lt hd.1)
          · exact ih1 h0 (by simp only [considerChild, hs, if_true]; rw [if_neg hd])
        · intro t ht hts hd100
          rcases List.mem_cons.1 ht with rfl | ht'
          · cases hacc : acc with
            | none =>
                have := ih1 ⟨t.normal, g.worldPos t, Vec3.distSq ppos (g.worldPos t)⟩
                  (by rw [hacc]; simp only [considerChild, hts, if_true];
                      rw [if_pos hd100])
                exact this
            | some h0 =>
                by_cases hd : Vec3.distSq ppos (g.worldPos t) < h0.d2
                · have := ih1 ⟨t.normal, g.worldPos t, Vec3.distSq ppos (g.worldPos t)⟩
                    (by rw [hacc]; simp only [considerChild, hts, if_true];
                        rw [if_pos ⟨hd, hd100⟩])
                  exact this
                · have hkeep := ih1 h0
                    (by rw [hacc]; simp only [considerChild, hts, if_true];
                        rw [if_neg (fun hc => hd hc.1)])
                  exact le_trans hkeep (not_lt.1 hd)
          · exact ih2 t ht' hts hd100
      · have hs' : s.isSurface = false := by
          cases hb : s.isSurface
          · rfl
          · exact absurd hb hs
        constructor
        · intro h0 hacc
          exact ih1 h0
            (by rw [hacc]; simp only [considerChild, hs', Bool.false_eq_true, if_false])
        · intro t ht hts hd100
          rcases List.mem_cons.1 ht with rfl | ht'
          · rw [hts] at hs'
            cases hs'
          · exact ih2 t ht' hts hd100

theorem scanFold_none (ppos : Vec3) :
    ∀ (gs : List SurfGroup) (acc : Option Hit),
      gs.foldl (scanGroup ppos) acc = none →
      acc = none ∧ ∀ g ∈ gs, g.isCollapsed = false → ∀ s ∈ g.children,
        s.isSurface = true → ¬Vec3.distSq ppos (g.worldPos s) < 100 := by
  intro gs
  induction gs with
  | nil =>
      intro acc hf
      rw [List.foldl_nil] at hf
      exact ⟨hf, by simp⟩
  | cons g gs ih =>
      intro acc hf
      rw [List.foldl_cons] at hf
      obtain ⟨h1, h2⟩ := ih (scanGroup ppos acc g) hf
      by_cases hgc : g.isCollapsed
      · have hacc : acc = none := by
          rwa [scanGroup, if_pos hgc] at h1
        refine ⟨hacc, fun g' hg' hg'c => ?_⟩
        rcases List.mem_cons.1 hg' with rfl | hg''
        · rw [hgc] at hg'c
          cases hg'c
        · exact h2 g' hg'' hg'c
      · rw [scanGroup, if_neg hgc] at h1
        obtain ⟨hacc, hchild⟩ := considerFold_none ppos g g.children acc h1
        refine ⟨hacc, fun g' hg' hg'c => ?_⟩
        rcases List.mem_cons.1 hg' with rfl | hg''
        · exact hchild
        · exact h2 g' hg'' hg'c

theorem scanFold_some_src (ppos : Vec3) :
    ∀ (gs : List SurfGroup) (acc : Option Hit) (h : Hit),
      gs.foldl (scanGroup ppos) acc = some h →
      acc = some h ∨ (QualHit ppos gs h ∧ h.d2 < 100) := by
  intro gs
  induction gs with
  | nil =>
      intro acc h hf
      rw [List.foldl_nil] at hf
      exact Or.inl hf
  | cons g gs ih =>
      intro acc h hf
      rw [List.foldl_cons] at hf
      rcases ih (scanGroup ppos acc g) h hf with h1 | ⟨⟨g', hg', hrest⟩, hlt⟩
      · by_cases hgc : g.isCollapsed
        · rw [scanGroup, if_pos hgc] at h1
          exact Or.inl h1
        · rw [scanGroup, if_neg hgc] at h1
          rcases considerFold_some_src ppos g g.children acc h h1 with
            h2 | ⟨s, hs, hsurf, hn, hw, hd, hd100⟩
          · exact Or.inl h2
          · refine Or.inr ⟨⟨g, List.mem_cons_self g gs, ?_, s, hs, hsurf, hn, hw, ?_⟩, hd100⟩
            · cases hb : g.isCollapsed
              · rfl
              · exact absurd hb hgc
            · rw [← hw] at hd ⊢
              exact hd
      · exact Or.inr ⟨⟨g', List.mem_cons_of_mem g hg', hrest⟩, hlt⟩

theorem scanFold_min (ppos : Vec3) :
    ∀ (gs : List SurfGroup) (acc : Option Hit) (h : Hit),
      gs.foldl (scanGroup ppos) acc = some h →
      (∀ h0, acc = some h0 → h.d2 ≤ h0.d2) ∧
      (∀ g ∈ gs, g.isCollapsed = false → ∀ s ∈ g.children, s.isSurface = true →
        Vec3.distSq ppos (g.worldPos s) < 100 →
        h.d2 ≤ Vec3.distSq ppos (g.worldPos s)) := by
  intro gs
  induction gs with
  | nil =>
      intro acc h hf
      rw [List.foldl_nil] at hf
      refine ⟨fun h0 hacc => ?_, by simp⟩
      rw [hf] at hacc
      injection hacc with hacc
      rw [hacc]
  | cons g gs ih =>
      intro acc h hf
      rw [List.foldl_cons] at hf
      obtain ⟨ih1, ih2⟩ := ih (scanGroup ppos acc g) h hf
      by_cases hgc : g.isCollapsed
      · refine ⟨fun h0 hacc => ih1 h0 (by rw [scanGroup, if_pos hgc]; exact hacc),
          fun g' hg' hg'c => ?_⟩
        rcases List.mem_cons.1 hg' with rfl | hg''
        · rw [hgc] at hg'c
          cases hg'c
        · exact ih2 g' hg'' hg'c
      · have hsg : scanGroup ppos acc g = g.children.foldl (considerChild ppos g) acc := by
          rw [scanGroup, if_neg hgc]
        constructor
        · intro h0 hacc
          cases hacc' : g.children.foldl (considerChild ppos g) acc with
          | none =>
              obtain ⟨hn, _⟩ := considerFold_none ppos g g.children acc hacc'
              rw [hacc] at hn
              cases hn
          | some h1 =>
              have hstep := (considerFold_min ppos g g.children acc h1 hacc').1 h0 hacc
              have htop := ih1 h1 (by rw [hsg, hacc'])
              exact le_trans htop hstep
        · intro g' hg' hg'c s hsmem hsurf hd100
          rcases List.mem_cons.1 hg' with rfl | hg''
          · cases hacc' : g'.children.foldl (considerChild ppos g') acc with
            | none =>
                obtain ⟨_, hno⟩ := considerFold_none ppos g' g'.children acc hacc'
                exact absurd hd100 (hno s hsmem hsurf)
            | some h1 =>
                have hstep := (considerFold_min ppos g' g'.children acc h1 hacc').2
                  s hsmem hsurf hd100
                have htop := ih1 h1 (by rw [hsg, hacc'])
                exact le_trans htop hstep
          · exact ih2 g' hg'' hg'c s hsmem hsurf hd100

theorem Vec3.eq_iff (a b : Vec3) : a = b ↔ a.x = b.x ∧ a.y = b.y ∧ a.z = b.z := by
  constructor
  · rintro rfl
    exact ⟨rfl, rfl, rfl⟩
  · rintro ⟨hx, hy, hz⟩
    cases a
    cases b
    simp_all

theorem findNearestHit_some (ppos : Vec3) (rooms corridors : List SurfGroup)
    (h : Hit) (hf : findNearestHit ppos rooms corridors = some h) :
    h.d2 < 100 ∧ QualHit ppos (rooms ++ corridors) h ∧
    (∀ g ∈ rooms ++ corridors, g.isCollapsed = false → ∀ s ∈ g.children,
      s.isSurface = true → Vec3.distSq ppos (g.worldPos s) < 100 →
      h.d2 ≤ Vec3.distSq ppos (g.worldPos s)) := by
  rw [findNearestHit] at hf
  have hqual : QualHit ppos (rooms ++ corridors) h ∧ h.d2 < 100 := by
    rcases scanFold_some_src ppos corridors _ h hf with h1 | ⟨⟨g, hg, hrest⟩, hlt⟩
    · rcases scanFold_some_src ppos rooms none h h1 with h2 | ⟨⟨g, hg, hrest⟩, hlt⟩
      · cases h2
      · exact ⟨⟨g, List.mem_append_left corridors hg, hrest⟩, hlt⟩
    · exact ⟨⟨g, List.mem_append_right rooms hg, hrest⟩, hlt⟩
  refine ⟨hqual.2, hqual.1, fun g hg hgc s hsmem hsurf hd100 => ?_⟩
  rcases List.mem_append.1 hg with hgr | hgcorr
  · cases hacc : rooms.foldl (scanGroup ppos) none with
    | none =>
        obtain ⟨_, hno⟩ := scanFold_none ppos rooms none hacc
        exact absurd hd100 (hno g hgr hgc s hsmem hsurf)
    | some h1 =>
        have hstep := (scanFold_min ppos rooms none h1 hacc).2 g hgr hgc s hsmem hsurf hd100
        have htop := (scanFold_min ppos corridors _ h hf).1 h1 hacc
        exact le_trans htop hstep
  · exact (scanFold_min ppos corridors _ h hf).2 g hgcorr hgc s hsmem hsurf hd100

/-- C2: the nearest-surface search considers only surfaces of non-collapsed
rooms/corridors within (squared) distance `< 100` (i.e. distance strictly
below 10 units) and selects one of minimum distance among those; a surface
at distance ≥ 10 or owned by a collapsed entity is never selected; when no
surface qualifies, `currentSurface` is set to null. -/
theorem C2_nearest_surface_search (rooms corridors : List SurfGroup) (p : Player) :
    (∀ h, findNearestHit p.position rooms corridors = some h →
      h.d2 < 100 ∧
      QualHit p.position (rooms ++ corridors) h ∧
      (∀ g ∈ rooms ++ corridors, g.isCollapsed = false → ∀ s ∈ g.children,
        s.isSurface = true → Vec3.distSq p.position (g.worldPos s) < 100 →
        h.d2 ≤ Vec3.distSq p.position (g.worldPos s)) ∧
      (findNearestSurface rooms corridors p).currentSurface = some ⟨h.normal, h.wpos⟩) ∧
    (findNearestHit p.position rooms corridors = none →
      (findNearestSurface rooms corridors p).currentSurface = none) ∧
    ((∀ g ∈ rooms ++ corridors, g.isCollapsed = false → ∀ s ∈ g.children,
        s.isSurface = true → ¬Vec3.distSq p.position (g.worldPos s) < 100) →
      (findNearestSurface rooms corridors p).currentSurface = none) := by
  refine ⟨fun h hf => ?_, fun hf => ?_, fun hno => ?_⟩
  · obtain ⟨hlt, hq, hmin⟩ := findNearestHit_some p.position rooms corridors h hf
    refine ⟨hlt, hq, hmin, ?_⟩
    simp only [findNearestSurface, hf]
    by_cases hd : h.d2 < 9
    · rw [if_pos hd]
    · rw [if_neg hd]
  · simp only [findNearestSurface, hf]
  · cases hfh : findNearestHit p.position rooms corridors with
    | none => simp only [findNearestSurface, hfh]
    | some h =>
        exfalso
        obtain ⟨hlt, ⟨g, hg, hgc, s, hsmem, hsurf, _, _, hd⟩, _⟩ :=
          findNearestHit_some p.position rooms corridors h hfh
        rw [hd] at hlt
        exact hno g hg hgc s hsmem hsurf hlt

/-- A single-room world with one floor surface at the origin. -/
def demoGroup : SurfGroup := ⟨Vec3.zero, false, [⟨Vec3.zero, ⟨0, 1, 0⟩, true⟩]⟩

/-- A player standing one unit above `demoGroup`'s floor. -/
def demoPlayer : Player := ⟨⟨0, 1, 0⟩, Vec3.zero, 3, 8, false, none, ⟨0, -20, 0⟩⟩

/-- Witness for C2 in the single-room world. -/
theorem C2_nearest_surface_search_witness :
    findNearestHit demoPlayer.position [demoGroup] [] = some ⟨⟨0, 1, 0⟩, Vec3.zero, 1⟩ ∧
    (findNearestSurface [demoGroup] [] demoPlayer).currentSurface =
      some ⟨⟨0, 1, 0⟩, Vec3.zero⟩ := by
  have hhit : findNearestHit demoPlayer.position [demoGroup] []
      = some ⟨⟨0, 1, 0⟩, Vec3.zero, 1⟩ := by
    norm_num [findNearestHit, scanGroup, considerChild, demoGroup, demoPlayer,
      SurfGroup.worldPos, Vec3.distSq, Vec3.zero, Vec3.eq_iff]
  exact ⟨hhit,
    ((C2_nearest_surface_search [demoGroup] [] demoPlayer).1
      ⟨⟨0, 1, 0⟩, Vec3.zero, 1⟩ hhit).2.2.2⟩

/-- A jumping player at the apex of a jump (`velocity.y = 0`) half a unit
above `demoGroup`'s floor (so within the snap threshold). -/
def demoApex : Player := ⟨⟨0, 1/2, 0⟩, Vec3.zero, 3, 8, true, none, ⟨0, -20, 0⟩⟩

/-- C3 counterexample: the claim says a snap clears the jump flag whenever
the player was jumping with *non-positive* vertical velocity; the code
requires strictly negative vertical velocity (`player.velocity.y < 0`,
src/main.js line 543).  `demoApex` is jumping with `velocity.y = 0` and is
snapped (its position is rewritten to `surface + normal·1`), yet its
`isJumping` flag stays `true`. -/
theorem C3_snap_jump_flag_counterexample :
    demoApex.isJumping = true ∧
    demoApex.velocity.y = 0 ∧
    (findNearestSurface [demoGroup] [] demoApex).position = ⟨0, 1, 0⟩ ∧
    demoApex.position ≠ ⟨0, 1, 0⟩ ∧
    (findNearestSurface [demoGroup] [] demoApex).isJumping = true := by
  have hhit : findNearestHit demoApex.position [demoGroup] []
      = some ⟨⟨0, 1, 0⟩, Vec3.zero, 1/4⟩ := by
    norm_num [findNearestHit, scanGroup, considerChild, demoGroup, demoApex,
      SurfGroup.worldPos, Vec3.distSq, Vec3.zero, Vec3.eq_iff]
  refine ⟨rfl, rfl, ?_, ?_, ?_⟩
  · simp only [findNearestSurface, hhit]
    rw [if_pos (by norm_num : ((⟨⟨0, 1, 0⟩, Vec3.zero, 1/4⟩ : Hit)).d2 < 9)]
    show Vec3.zero + (Vec3.mk 0 1 0).smul 1 = Vec3.mk 0 1 0
    rw [Vec3.eq_iff]
    norm_num [Vec3.zero, Vec3.smul]
  · norm_num [demoApex, Vec3.eq_iff]
  · simp only [findNearestSurface, hhit]
    rw [if_pos (by norm_num : ((⟨⟨0, 1, 0⟩, Vec3.zero, 1/4⟩ : Hit)).d2 < 9)]
    show (if demoApex.isJumping ∧ demoApex.velocity.y < 0 then false
      else demoApex.isJumping) = true
    rw [if_neg (by norm_num [demoApex, Vec3.zero])]
    rfl

/-- C3 (amended): whenever the nearest qualifying surface's squared
distance is below 9 (distance < 3 units), the resolver sets the player's
position to `surfaceWorldPos + normal·1`, sets gravity to `-normal·20`,
and clears the jump flag exactly when the player was jumping with
*negative* vertical velocity; no position/gravity rewrite occurs when the
squared distance is 9 or more (distance ≥ 3). -/
theorem C3_surface_snap (rooms corridors : List SurfGroup) (p : Player) :
    ∀ h, findNearestHit p.position rooms corridors = some h →
      (h.d2 < 9 →
        (findNearestSurface rooms corridors p).position = h.wpos + h.normal.smul 1 ∧
        (findNearestSurface rooms corridors p).gravity = h.normal.smul (-20) ∧
        (p.isJumping = true ∧ p.velocity.y < 0 →
          (findNearestSurface rooms corridors p).isJumping = false) ∧
        (¬(p.isJumping = true ∧ p.velocity.y < 0) →
          (findNearestSurface rooms corridors p).isJumping = p.isJumping)) ∧
      (¬h.d2 < 9 →
        (findNearestSurface rooms corridors p).position = p.position ∧
        (findNearestSurface rooms corridors p).gravity = p.gravity ∧
        (findNearestSurface rooms corridors p).isJumping = p.isJumping) := by
  intro h hf
  simp only [findNearestSurface, hf]
  constructor
  · intro hd
    rw [if_pos hd]
    refine ⟨rfl, rfl, fun hj => ?_, fun hj => ?_⟩
    · show (if p.isJumping ∧ p.velocity.y < 0 then false else p.isJumping) = false
      rw [if_pos ⟨by rw [hj.1], hj.2⟩]
    · show (if p.isJumping ∧ p.velocity.y < 0 then false else p.isJumping) = p.isJumping
      rw [if_neg (fun hc => hj ⟨hc.1, hc.2⟩)]
  · intro hd
    rw [if_neg hd]
    exact ⟨rfl, rfl, rfl⟩

/-- A jumping player falling (`velocity.y = -1`) half a unit above
`demoGroup`'s floor. -/
def demoFaller : Player := ⟨⟨0, 1/2, 0⟩, ⟨0, -1, 0⟩, 3, 8, true, none, ⟨0, -20, 0⟩⟩

/-- Witness for C3 (amended): the falling jumper snaps and lands. -/
theorem C3_surface_snap_witness :
    (findNearestSurface [demoGroup] [] demoFaller).position =
      Vec3.zero + (Vec3.mk 0 1 0).smul 1 ∧
    (findNearestSurface [demoGroup] [] demoFaller).isJumping = false := by
  have hhit : findNearestHit demoFaller.position [demoGroup] []
      = some ⟨⟨0, 1, 0⟩, Vec3.zero, 1/4⟩ := by
    norm_num [findNearestHit, scanGroup, considerChild, demoGroup, demoFaller,
      SurfGroup.worldPos, Vec3.distSq, Vec3.zero, Vec3.eq_iff]
  have hspec := (C3_surface_snap [demoGroup] [] demoFaller
    ⟨⟨0, 1, 0⟩, Vec3.zero, 1/4⟩ hhit).1 (by norm_num)
  exact ⟨hspec.1, hspec.2.2.1 ⟨rfl, by norm_num [demoFaller]⟩⟩

/-- The collapse-relevant state of a room: its `userData.index` and its
`userData.isCollapsed` flag (timestamps/rotation live in `Collapsing`). -/
structure RoomSt where
  index : ℕ
  isCollapsed : Bool
deriving DecidableEq, Repr

/-- The collapse-relevant state of a corridor: its two connected room
indices (`userData.connectedRooms`) and its `userData.isCollapsed` flag. -/
structure CorrSt where
  roomA : ℕ
  roomB : ℕ
  isCollapsed : Bool
deriving DecidableEq, Repr

/-- The collapse-flag state mutated by `collapseRoomsBehindPlayer` /
`collapseConnectedCorridors` (src/main.js). -/
structure World where
  rooms : List RoomSt
  corridors : List CorrSt
deriving DecidableEq, Repr

/-- `rooms[i].userData.isCollapsed` (positional array access; rooms are
stored at their index in `generateLevel`). -/
def roomCollapsed (rooms : List RoomSt) (i : ℕ) : Bool :=
  (rooms[i]?.map RoomSt.isCollapsed).getD false

/-- `collapseConnectedCorridors` (src/main.js lines 703-728): every
non-collapsed corridor connected to `roomIndex` collapses when either of
its connected rooms is collapsed (the timestamp/phase/rotation writes are
modelled by the `Collapsing` animation state separately). -/
def collapseConnectedCorridors (rooms : List RoomSt) (roomIndex : ℕ)
    (corridors : List CorrSt) : List CorrSt :=
  corridors.map (fun c =>
    if c.isCollapsed then c
    else if c.roomA = roomIndex ∨ c.roomB = roomIndex then
      if roomCollapsed rooms c.roomA || roomCollapsed rooms c.roomB then
        { c with isCollapsed := true }
      else c
    else c)

/-- One iteration of the room loop of `collapseRoomsBehindPlayer`
(src/main.js lines 608-632): a non-collapsed room with
`0 < index < threshold` collapses, and its connected corridors are then
scanned (the debris spawn is a visual side effect modelled by
`createDebrisParticle`). -/
def collapseStepAt (threshold : ℤ) (w : World) (i : ℕ) : World :=
  match w.rooms[i]? with
  | none => w
  | some r =>
      if r.isCollapsed then w
      else if (r.index : ℤ) < threshold ∧ 0 < r.index then
        let rooms' := w.rooms.set i { r with isCollapsed := true }
        { rooms := rooms',
          corridors := collapseConnectedCorridors rooms' r.index w.corridors }
      else w

/-- `collapseRoomsBehindPlayer` (src/main.js lines 599-633): the threshold
is `⌊playerZ / 25⌋ - 3` and the room list is traversed in order. -/
def collapseRoomsBehindPlayer (playerZ : ℚ) (w : World) : World :=
  (List.range w.rooms.length).foldl (collapseStepAt (⌊playerZ / 25⌋ - 3)) w

/-- The level of `generateLevel` in src/main.js: 25 intact rooms indexed
in path order and 24 intact corridors connecting room `i` to room `i+1`. -/
def initWorldMain : World :=
  { rooms := (List.range 25).map (fun i => ⟨i, false⟩),
    corridors := (List.range 24).map (fun i => ⟨i, i + 1, false⟩) }

/-- The collapse-flag states reachable in a linear-variant session:
`collapseRoomsBehindPlayer` is the only code that sets `isCollapsed`
(it runs once per tick with the player's current Z position). -/
inductive ReachableMain : World → Prop where
  | init : ReachableMain initWorldMain
  | step (playerZ : ℚ) (w : World) : ReachableMain w →
      ReachableMain (collapseRoomsBehindPlayer playerZ w)

/-- Every collapsed corridor has at least one collapsed connected room. -/
def corridorInv (w : World) : Bool :=
  w.corridors.all (fun c => !c.isCollapsed ||
    (roomCollapsed w.rooms c.roomA || roomCollapsed w.rooms c.roomB))

theorem corridorInv_iff (w : World) :
    corridorInv w = true ↔ ∀ c ∈ w.corridors, c.isCollapsed = true →
      (roomCollapsed w.rooms c.roomA || roomCollapsed w.rooms c.roomB) = true := by
  rw [corridorInv, List.all_eq_true]
  constructor
  · intro h c hc hcol
    have := h c hc
    rwa [hcol, Bool.not_true, Bool.false_or] at this
  · intro h c hc
    cases hcol : c.isCollapsed
    · rw [Bool.not_false, Bool.true_or]
    · rw [Bool.not_true, Bool.false_or]
      exact h c hc hcol

theorem roomCollapsed_mono_set (rooms : List RoomSt) (i : ℕ) (r : RoomSt) (j : ℕ)
    (h : roomCollapsed rooms j = true) :
    roomCollapsed (rooms.set i { r with isCollapsed := true }) j = true := by
  rw [roomCollapsed, List.getElem?_set]
  by_cases hij : i = j
  · rw [if_pos hij]
    have hlt : j < rooms.length := by
      by_contra hge
      rw [roomCollapsed, List.getElem?_eq_none (by omega)] at h
      exact absurd h (by simp)
    rw [if_pos (hij ▸ hlt)]
    rfl
  · rw [if_neg hij]
    exact h

theorem collapseConnectedCorridors_spec (rooms : List RoomSt) (ri : ℕ)
    (cs : List CorrSt) :
    ∀ c' ∈ collapseConnectedCorridors rooms ri cs,
      ∃ c ∈ cs, c'.roomA = c.roomA ∧ c'.roomB = c.roomB ∧
        (c'.isCollapsed = true → c.isCollapsed = true ∨
          (roomCollapsed rooms c.roomA || roomCollapsed rooms c.roomB) = true) := by
  intro c' hc'
  rw [collapseConnectedCorridors, List.mem_map] at hc'
  obtain ⟨c, hc, hfc⟩ := hc'
  refine ⟨c, hc, ?_⟩
  by_cases h1 : c.isCollapsed
  · rw [if_pos h1] at hfc
    rw [← hfc]
    exact ⟨rfl, rfl, fun _ => Or.inl h1⟩
  · rw [if_neg h1] at hfc
    by_cases h2 : c.roomA = ri ∨ c.roomB = ri
    · rw [if_pos h2] at hfc
      by_cases h3 : (roomCollapsed rooms c.roomA || roomCollapsed rooms c.roomB) = true
      · rw [if_pos h3] at hfc
        rw [← hfc]
        exact ⟨rfl, rfl, fun _ => Or.inr h3⟩
      · rw [if_neg h3] at hfc
        rw [← hfc]
        exact ⟨rfl, rfl, fun hcol => absurd hcol (by simp_all)⟩
    · rw [if_neg h2] at hfc
      rw [← hfc]
      refine ⟨rfl, rfl, fun hcol => ?_⟩
      rw [hcol] at h1
      exact absurd rfl h1

theorem collapseStepAt_inv (th : ℤ) (w : World) (i : ℕ)
    (h : corridorInv w = true) : corridorInv (collapseStepAt th w i) = true := by
  rw [corridorInv_iff] at h ⊢
  cases hr : w.rooms[i]? with
  | none =>
      simp only [collapseStepAt, hr]
      exact h
  | some r =>
      by_cases h1 : r.isCollapsed
      · simp only [collapseStepAt, hr]
        rw [if_pos h1]
        exact h
      · simp only [collapseStepAt, hr]
        rw [if_neg h1]
        by_cases h2 : (r.index : ℤ) < th ∧ 0 < r.index
        · rw [if_pos h2]
          intro c' hc' hcol
          obtain ⟨c, hc, hA, hB, himp⟩ :=
            collapseConnectedCorridors_spec (w.rooms.set i { r with isCollapsed := true })
              r.index w.corridors c' hc'
          rw [hA, hB]
          rcases himp hcol with hold | hnew
          · have hboth := h c hc hold
            rcases Bool.or_eq_true_iff.1 hboth with ha | hb
            · rw [roomCollapsed_mono_set w.rooms i r c.roomA ha, Bool.true_or]
            · rw [roomCollapsed_mono_set w.rooms i r c.roomB hb, Bool.or_true]
          · exact hnew
        · rw [if_neg h2]
          exact h

theorem foldl_world_inv (P : World → Prop) (f : World → ℕ → World)
    (hf : ∀ w i, P w → P (f w i)) :
    ∀ (l : List ℕ) (w : World), P w → P (l.foldl f w) := by
  intro l
  induction l with
  | nil => exact fun w h => h
  | cons i l ih =>
      intro w h
      rw [List.foldl_cons]
      exact ih (f w i) (hf w i h)

/-- C4: for every reachable collapse-flag state of a linear-variant
session, every collapsed (Shaking or Falling) corridor has at least one
collapsed connected room — a corridor never collapses while both its
connected rooms are intact, and its collapse is only ever triggered from a
room collapse. -/
theorem C4_corridor_collapse_implies_room (w : World) (h : ReachableMain w) :
    corridorInv w = true := by
  induction h with
  | init => decide
  | step playerZ w _ ih =>
      rw [collapseRoomsBehindPlayer]
      exact foldl_world_inv (fun w => corridorInv w = true) _
        (fun w i hw => collapseStepAt_inv _ w i hw) _ w ih

/-- Witness for C4 after one collapse pass with the player deep in the
level (threshold `⌊500/25⌋ - 3 = 17`, so rooms 1-16 collapse). -/
theorem C4_corridor_collapse_implies_room_witness :
    corridorInv (collapseRoomsBehindPlayer 500 initWorldMain) = true :=
  C4_corridor_collapse_implies_room _
    (ReachableMain.step 500 initWorldMain ReachableMain.init)

/-- `collapseRandomRoom` (src/unnamed/part_000 lines 550-563): rooms that
are already collapsed or have index 0 are filtered out; one of the
remaining rooms is picked at random and collapsed.  The random draw
`Math.floor(Math.random() * len)` (a number in `[0, len)`) is modelled as
`pick % len`; the picked object is identified by its index (room indexes
are distinct at construction). -/
def collapseRandomRoom (pick : ℕ) (rooms : List RoomSt) : List RoomSt :=
  let available := rooms.filter (fun r => !r.isCollapsed && r.index != 0)
  if available.isEmpty then rooms
  else
    match available[pick % available.length]? with
    | none => rooms
    | some chosen =>
        rooms.map (fun r =>
          if r.index = chosen.index then { r with isCollapsed := true } else r)

/-- The 12 intact rooms of `generateLevel` in src/unnamed/part_000. -/
def initRoomsGrid : List RoomSt := (List.range 12).map (fun i => ⟨i, false⟩)

/-- The collapse-flag states reachable in a grid-variant session:
`collapseRandomRoom` is the only code that sets a room's `isCollapsed`
flag there (fired on the collapse-interval countdown). -/
inductive ReachableGrid : List RoomSt → Prop where
  | init : ReachableGrid initRoomsGrid
  | step (pick : ℕ) (rs : List RoomSt) : ReachableGrid rs →
      ReachableGrid (collapseRandomRoom pick rs)

/-- No room with index 0 (the start room) is collapsed. -/
def startRoomIntact (rooms : List RoomSt) : Bool :=
  rooms.all (fun r => r.index != 0 || !r.isCollapsed)

theorem startRoomIntact_iff (rooms : List RoomSt) :
    startRoomIntact rooms = true ↔
      ∀ r ∈ rooms, r.index = 0 → r.isCollapsed = false := by
  rw [startRoomIntact, List.all_eq_true]
  constructor
  · intro h r hr hidx
    have := h r hr
    rw [hidx] at this
    simpa using this
  · intro h r hr
    by_cases hidx : r.index = 0
    · rw [h r hr hidx]
      simp
    · simp [hidx]

theorem collapseStepAt_start (th : ℤ) (w : World) (i : ℕ)
    (h : ∀ r ∈ w.rooms, r.index = 0 → r.isCollapsed = false) :
    ∀ r ∈ (collapseStepAt th w i).rooms, r.index = 0 → r.isCollapsed = false := by
  cases hr : w.rooms[i]? with
  | none =>
      simp only [collapseStepAt, hr]
      exact h
  | some r0 =>
      by_cases h1 : r0.isCollapsed
      · simp only [collapseStepAt, hr]
        rw [if_pos h1]
        exact h
      · simp only [collapseStepAt, hr]
        rw [if_neg h1]
        by_cases h2 : (r0.index : ℤ) < th ∧ 0 < r0.index
        · rw [if_pos h2]
          intro r hrmem hidx
          rcases List.mem_or_eq_of_mem_set hrmem with hrold | hrnew
          · exact h r hrold hidx
          · rw [hrnew] at hidx
            have hidx0 : r0.index = 0 := hidx
            exact absurd hidx0 (by omega)
        · rw [if_neg h2]
          exact h

theorem collapseRandomRoom_start (pick : ℕ) (rooms : List RoomSt)
    (h : ∀ r ∈ rooms, r.index = 0 → r.isCollapsed = false) :
    ∀ r ∈ collapseRandomRoom pick rooms, r.index = 0 → r.isCollapsed = false := by
  rw [collapseRandomRoom]
  by_cases he : (rooms.filter (fun r => !r.isCollapsed && r.index != 0)).isEmpty
  · rw [if_pos he]
    exact h
  · rw [if_neg he]
    cases hchosen : (rooms.filter
        (fun r => !r.isCollapsed && r.index != 0))[pick %
          (rooms.filter (fun r => !r.isCollapsed && r.index != 0)).length]? with
    | none => exact h
    | some chosen =>
        have hmem := List.getElem?_mem hchosen
        have hprop := (List.mem_filter.1 hmem).2
        have hidx0 : chosen.index ≠ 0 := by
          simp only [Bool.and_eq_true, bne_iff_ne] at hprop
          exact hprop.2
        intro r hrmem hidx
        rw [List.mem_map] at hrmem
        obtain ⟨r0, hr0, hfr⟩ := hrmem
        by_cases heq : r0.index = chosen.index
        · rw [if_pos heq] at hfr
          rw [← hfr] at hidx
          exact absurd (heq ▸ hidx) hidx0
        · rw [if_neg heq] at hfr
          rw [← hfr] at hidx ⊢
          exact h r0 hr0 hidx

/-- C10: in both level-layout variants the start room (index 0) is never
collapsed in any reachable session state — in the grid variant because
index 0 is filtered out of the candidate set, and in the linear variant
because only rooms with index strictly greater than 0 can collapse. -/
theorem C10_start_room_never_collapses :
    (∀ w, ReachableMain w → startRoomIntact w.rooms = true) ∧
    (∀ rs, ReachableGrid rs → startRoomIntact rs = true) := by
  constructor
  · intro w h
    induction h with
    | init => decide
    | step playerZ w _ ih =>
        rw [startRoomIntact_iff] at ih ⊢
        rw [collapseRoomsBehindPlayer]
        exact foldl_world_inv
          (fun w => ∀ r ∈ w.rooms, r.index = 0 → r.isCollapsed = false) _
          (fun w i hw => collapseStepAt_start _ w i hw) _ w ih
  · intro rs h
    induction h with
    | init => decide
    | step pick rs _ ih =>
        rw [startRoomIntact_iff] at ih ⊢
        exact collapseRandomRoom_start pick rs ih

/-- Witness for C10: one collapse pass in each variant leaves the start
room intact. -/
theorem C10_start_room_never_collapses_witness :
    startRoomIntact (collapseRoomsBehindPlayer 500 initWorldMain).rooms = true ∧
    startRoomIntact (collapseRandomRoom 4 initRoomsGrid) = true :=
  ⟨C10_start_room_never_collapses.1 _
      (ReachableMain.step 500 initWorldMain ReachableMain.init),
   C10_start_room_never_collapses.2 _
      (ReachableGrid.step 4 initRoomsGrid ReachableGrid.init)⟩

end VaultCollapse
